import Mathlib

/-!
Verification of the LockedIn backend (`backend/server.py`, `backend/sheets.py`).

The development shallowly embeds the reminder-scheduling engine:
* `schedule_daily_reminders` (server.py lines 164-200) as a pure function on an
  explicit job registry,
* the signup and reminder-time-update endpoints as state transformers over a
  user store and the registry,
* the Google-Sheets persistence adapter's `insert_user` / `get_user_by_phone`
  with their `"|"`-join/split list serialization.

Python strings are modelled through their character lists; Python `int` uses
arbitrary-precision integers, modelled by `Int`, and `%` on a positive modulus
agrees with Lean's `Int.emod`.
-/

set_option autoImplicit false

namespace LockedIn

/-! ### Character-list utilities modelling Python string primitives -/

/-- `startsWithL needle hay`: the list `hay` begins with `needle`. -/
def startsWithL : List Char → List Char → Bool
  | [], _ => true
  | _ :: _, [] => false
  | n :: ns, h :: hs => (n == h) && startsWithL ns hs

/-- `occursInL needle hay`: `needle` occurs as a contiguous sublist of `hay`.
Models Python's `needle in hay` on strings. -/
def occursInL (needle : List Char) : List Char → Bool
  | [] => needle.isEmpty
  | h :: hs => startsWithL needle (h :: hs) || occursInL needle hs

/-- Python's substring test `needle in hay`. -/
def pyIn (needle hay : String) : Bool := occursInL needle.data hay.data

/-- Python's `str.split(sep)` for a one-character separator, on char lists.
Splitting the empty string yields `[[]]`, matching `"".split(c) == [""]`. -/
def splitOnCharL (sep : Char) : List Char → List (List Char)
  | [] => [[]]
  | c :: cs =>
    if c = sep then [] :: splitOnCharL sep cs
    else
      match splitOnCharL sep cs with
      | [] => [[c]]
      | w :: ws => (c :: w) :: ws

/-- Python's `sep.join(words)` for a one-character separator, on char lists. -/
def joinCharL (sep : Char) : List (List Char) → List Char
  | [] => []
  | [w] => w
  | w :: ws => w ++ sep :: joinCharL sep ws

/-- ASCII whitespace, as stripped by Python's `int(str)` conversion. -/
def isSpaceChar (c : Char) : Bool :=
  c == ' ' || c == '\t' || c == '\n' || c == '\r'

/-- Strip leading and trailing whitespace from a char list. -/
def trimL (l : List Char) : List Char :=
  ((l.dropWhile isSpaceChar).reverse.dropWhile isSpaceChar).reverse

/-- Accumulate the decimal value of a digit run; `none` on a non-digit. -/
def parseDigitsAux : Nat → List Char → Option Nat
  | acc, [] => some acc
  | acc, c :: cs =>
    if c.isDigit then parseDigitsAux (10 * acc + (c.toNat - 48)) cs
    else none

/-- Python's `int(s)` on the character list of `s`: optional surrounding
whitespace, an optional sign, then at least one decimal digit. -/
def pyIntL (l : List Char) : Option Int :=
  match trimL l with
  | [] => none
  | '-' :: cs =>
    match cs with
    | [] => none
    | _ => (parseDigitsAux 0 cs).map (fun n => -(n : Int))
  | '+' :: cs =>
    match cs with
    | [] => none
    | _ => (parseDigitsAux 0 cs).map (fun n => (n : Int))
  | cs => (parseDigitsAux 0 cs).map (fun n => (n : Int))

/-- Decimal rendering of a natural number, fuel-driven so that the kernel can
reduce it; `natToChars` supplies enough fuel. -/
def natToCharsAux (fuel : Nat) (n : Nat) : List Char :=
  match fuel with
  | 0 => []
  | fuel + 1 =>
    if n < 10 then [Nat.digitChar n]
    else natToCharsAux fuel (n / 10) ++ [Nat.digitChar (n % 10)]

/-- Decimal rendering of a natural number (the digits of Python `str(n)`). -/
def natToChars (n : Nat) : List Char := natToCharsAux (n + 1) n

/-- Python `str(n)` for a natural number. -/
def natToString (n : Nat) : String := String.mk (natToChars n)

/-- Python `str(i)` for an integer. -/
def intToString (i : Int) : String :=
  if i < 0 then String.mk ('-' :: natToChars i.natAbs)
  else natToString i.toNat

/-- The numeric value of a decimal digit list (proof-side inverse of
`natToChars`). -/
def natVal (l : List Char) : Nat :=
  l.foldl (fun a c => 10 * a + (c.toNat - 48)) 0

namespace Server

/-! ### The scheduler model (`backend/server.py`)

An APScheduler job as produced by `scheduler.add_job` in
`schedule_daily_reminders`: the string id, the cron trigger's UTC hour and
minute, and the two call arguments `[user_phone, reminder_text]`. -/

structure Job where
  id : String
  hour : Int
  minute : Int
  phone : String
  text : String
deriving Repr, DecidableEq

/-- The job registry owned by the (single, process-wide) scheduler, in
insertion order, as returned by `scheduler.get_jobs()`. -/
abbrev Registry := List Job

/-- Result of `schedule_daily_reminders`: the registry after the call and the
returned boolean (`False` exactly when the `try` body raised). -/
structure SchedResult where
  registry : Registry
  ok : Bool
deriving Repr, DecidableEq

/-- `hour, minute = map(int, reminder_time.split(':'))` — `none` models the
`ValueError` raised on a malformed string (wrong number of `:`-separated
fields, or a field that is not an integer literal). -/
def parseTime (s : String) : Option (Int × Int) :=
  match (splitOnCharL ':' s.data).map pyIntL with
  | [some h, some m] => some (h, m)
  | _ => none

/-- The body of the daily reminder message built for a goal. -/
def reminderText (goal : String) : String :=
  "🎯 LockedIn Daily Reminder\n\nTime to focus on: " ++ goal ++
    "\n\nStay locked in and make progress today! 💪"

/-- The job id `f"reminder_{user_phone}_{hour}_{minute}_{i}"` (local hour and
minute, pair index `i`). -/
def jobId (phone : String) (hour minute : Int) (i : Nat) : String :=
  "reminder_" ++ phone ++ "_" ++ intToString hour ++ "_" ++ intToString minute
    ++ "_" ++ natToString i

/-- The job installed for pair `i` with parsed local time `(h, m)` and goal
text `goal`: trigger at UTC hour `(h - 1) % 24` (GMT+1 to UTC), minute
unchanged. -/
def mkJob (phone : String) (i : Nat) (h m : Int) (goal : String) : Job :=
  { id := jobId phone h m i
    hour := (h - 1) % 24
    minute := m
    phone := phone
    text := reminderText goal }

/-- The removal loop: `scheduler.remove_job(job.id)` for every job whose id
contains `user_phone` as a substring (`if user_phone in job.id`). -/
def removeUserJobs (phone : String) (reg : Registry) : Registry :=
  reg.filter (fun j => !(pyIn phone j.id))

/-- `scheduler.add_job(..., id=..., replace_existing=True)`: replace the job
with the same id in place if one exists, otherwise append. -/
def addJob (reg : Registry) (j : Job) : Registry :=
  if reg.any (fun k => k.id == j.id) then
    reg.map (fun k => if k.id == j.id then j else k)
  else reg ++ [j]

/-- `CronTrigger(hour=utc_hour, minute=minute, timezone=pytz.UTC)` validates
its integer fields; `utc_hour` is already reduced mod 24, so only the minute
can be rejected (`ValueError` unless it lies in `[0, 59]`). -/
def cronMinuteOk (m : Int) : Bool := decide (0 ≤ m) && decide (m ≤ 59)

/-- The installation loop `for i, reminder_time in enumerate(reminder_times)`,
with `i` the explicit enumeration counter. A `ValueError` from time parsing or
trigger construction stops the loop with the registry as mutated so far and a
`false` return. -/
def installLoop (phone : String) (goals : List String) :
    Nat → List String → Registry → SchedResult
  | _, [], reg => ⟨reg, true⟩
  | i, t :: rest, reg =>
    if i < goals.length then
      match parseTime t with
      | none => ⟨reg, false⟩
      | some (h, m) =>
        if cronMinuteOk m then
          installLoop phone goals (i + 1) rest
            (addJob reg (mkJob phone i h m (goals.getD i "")))
        else ⟨reg, false⟩
    else installLoop phone goals (i + 1) rest reg

/-- `schedule_daily_reminders(user_phone, goals, reminder_times)` acting on an
explicit registry: clear every job whose id contains the phone, then install
one job per enumerated `(goal, time)` pair with index below `len(goals)`. -/
def schedule_daily_reminders (reg : Registry) (user_phone : String)
    (goals reminder_times : List String) : SchedResult :=
  installLoop user_phone goals 0 reminder_times (removeUserJobs user_phone reg)

/-- The pure planner implicit in the installation loop: the list of
`(pair_index, local_hour, local_minute, goal_text)` entries the loop would
install starting at counter `i`, and whether it runs to completion. -/
def planLoop (goals : List String) : Nat → List String →
    List (Nat × Int × Int × String) × Bool
  | _, [] => ([], true)
  | i, t :: rest =>
    if i < goals.length then
      match parseTime t with
      | none => ([], false)
      | some (h, m) =>
        if cronMinuteOk m then
          let p := planLoop goals (i + 1) rest
          ((i, h, m, goals.getD i "") :: p.1, p.2)
        else ([], false)
    else planLoop goals (i + 1) rest

/-- The job corresponding to one planner entry. -/
def entryJob (phone : String) (e : Nat × Int × Int × String) : Job :=
  mkJob phone e.1 e.2.1 e.2.2.1 e.2.2.2

/-- A reminder-time string the installation loop accepts: it parses as
`int:int` and its minute passes the cron-field validation. -/
def timeOk (t : String) : Bool :=
  match parseTime t with
  | some (_, m) => cronMinuteOk m
  | none => false

/-- The pure planning data of a call: the `(pair_index, utc_hour, minute,
goal_text)` tuples derived from the inputs alone. -/
def planTuples (goals times : List String) : List (Nat × Int × Int × String) :=
  (planLoop goals 0 times).1.map (fun e => (e.1, (e.2.1 - 1) % 24, e.2.2.1, e.2.2.2))

/-! ### The API layer (`backend/server.py`) -/

/-- A stored user document (the `User` pydantic model); `id` and `created_at`
are generated at construction time and passed in explicitly here. -/
structure User where
  id : String
  name : String
  email : String
  phone : String
  goals : List String
  reminder_times : List String
  timezone : String
  created_at : String
  active : Bool
deriving Repr, DecidableEq

/-- The `UserCreate` request body. -/
structure UserCreate where
  name : String
  email : String
  phone : String
  goals : List String
  reminder_times : List String
deriving Repr, DecidableEq

/-- The user document `User(**user_data.dict())` built during signup, with the
generated uuid and creation timestamp supplied as parameters. -/
def newUser (data : UserCreate) (newId now : String) : User :=
  { id := newId
    name := data.name
    email := data.email
    phone := data.phone
    goals := data.goals
    reminder_times := data.reminder_times
    timezone := "GMT+1"
    created_at := now
    active := true }

/-- `POST /api/users/signup`. The database insert succeeds; the welcome-email
outcome (`_emailOk`, external) and the scheduling outcome are only logged: the
endpoint stores the user, runs `schedule_daily_reminders`, and returns the
created user as the response body (`response_model=User`) in every case. -/
def signup_user (db : List User) (reg : Registry) (data : UserCreate)
    (newId now : String) (_emailOk : Bool) : List User × Registry × User :=
  let user := newUser data newId now
  let s := schedule_daily_reminders reg user.phone user.goals user.reminder_times
  (db ++ [user], s.registry, user)

/-- `db.users.find_one({"phone": phone})`: the first stored user with the
given phone. -/
def find_one (db : List User) (phone : String) : Option User :=
  db.find? (fun u => u.phone == phone)

/-- `db.users.update_one({"phone": ...}, {"$set": {"reminder_times": ...}})`:
update the first matching document. -/
def update_one : List User → String → List String → List User
  | [], _, _ => []
  | u :: us, phone, newTimes =>
    if u.phone == phone then { u with reminder_times := newTimes } :: us
    else u :: update_one us phone newTimes

/-- The HTTP outcome of `PUT /api/users/reminder-times`: 200 success, 404
unknown user, or 500 "Failed to reschedule reminders". -/
inductive UpdateResponse where
  | success
  | notFound
  | schedError
deriving Repr, DecidableEq

/-- `PUT /api/users/reminder-times`: find the user; if present, write the new
reminder times to the database, then reschedule with the stored user's goals
and the new times; report a 500 error when rescheduling returns `False` — the
database write is not rolled back. -/
def update_reminder_times (db : List User) (reg : Registry) (phone : String)
    (newTimes : List String) : List User × Registry × UpdateResponse :=
  match find_one db phone with
  | none => (db, reg, .notFound)
  | some user =>
    let db2 := update_one db phone newTimes
    let s := schedule_daily_reminders reg user.phone user.goals newTimes
    if s.ok then (db2, s.registry, .success)
    else (db2, s.registry, .schedError)

end Server

namespace Sheets

/-! ### The Google-Sheets adapter (`backend/sheets.py`) -/

/-- `"|".join(words)` as used to serialize the goal and reminder-time lists. -/
def pyJoinBar (l : List String) : String :=
  String.mk (joinCharL '|' (l.map String.data))

/-- `s.split('|')` as used to deserialize them. -/
def pySplitBar (s : String) : List String :=
  (splitOnCharL '|' s.data).map String.mk

/-- A spreadsheet row in column order `id, name, email, phone, goals,
reminder_times, timezone, created_at, active`; the two list columns hold the
`"|"`-joined serialization. -/
structure SheetRow where
  id : String
  name : String
  email : String
  phone : String
  goals : String
  reminder_times : String
  timezone : String
  created_at : String
  active : String
deriving Repr, DecidableEq

/-- The `user_data` dict passed to `insert_user` (list-valued `goals` and
`reminder_times`; the other values rendered as cell strings). -/
structure SheetUserIn where
  id : String
  name : String
  email : String
  phone : String
  goals : List String
  reminder_times : List String
  timezone : String
  active : String
deriving Repr, DecidableEq

/-- The record returned by `get_user_by_phone`: the row with the two list
columns split back on `'|'`. -/
structure SheetUserOut where
  id : String
  name : String
  email : String
  phone : String
  goals : List String
  reminder_times : List String
  timezone : String
  created_at : String
  active : String
deriving Repr, DecidableEq

/-- `insert_user(user_data)`: stamp `created_at` (passed in as `now`), join the
two lists with `'|'`, and append the row to the sheet. -/
def insert_user (sheet : List SheetRow) (u : SheetUserIn) (now : String) :
    List SheetRow :=
  sheet ++ [{ id := u.id
              name := u.name
              email := u.email
              phone := u.phone
              goals := pyJoinBar u.goals
              reminder_times := pyJoinBar u.reminder_times
              timezone := u.timezone
              created_at := now
              active := u.active }]

/-- `get_user_by_phone(phone)`: scan the rows in order for the first with the
given phone and return it with `goals` and `reminder_times` split on `'|'`;
`None` when no row matches. -/
def get_user_by_phone (sheet : List SheetRow) (phone : String) :
    Option SheetUserOut :=
  (sheet.find? (fun r => r.phone == phone)).map (fun r =>
    { id := r.id
      name := r.name
      email := r.email
      phone := r.phone
      goals := pySplitBar r.goals
      reminder_times := pySplitBar r.reminder_times
      timezone := r.timezone
      created_at := r.created_at
      active := r.active })

end Sheets

/-! ### Lemmas: substring occurrence -/

theorem startsWithL_append (xs ys : List Char) : startsWithL xs (xs ++ ys) = true := by
  induction xs with
  | nil => rfl
  | cons x xs ih => simp [startsWithL, ih]

theorem occursInL_mid (needle pre suf : List Char) :
    occursInL needle (pre ++ (needle ++ suf)) = true := by
  induction pre with
  | nil =>
    cases needle with
    | nil =>
      cases suf with
      | nil => rfl
      | cons c cs => simp [occursInL, startsWithL]
    | cons n ns =>
      show (startsWithL (n :: ns) ((n :: ns) ++ suf) ||
        occursInL (n :: ns) (ns ++ suf)) = true
      rw [startsWithL_append, Bool.true_or]
  | cons c cs ih => simp [occursInL, ih]

/-- Python's `p in a + p + b` is always true. -/
theorem pyIn_sandwich (p a b : String) : pyIn p (a ++ p ++ b) = true := by
  have h : (a ++ p ++ b).data = a.data ++ (p.data ++ b.data) := by
    rw [String.data_append, String.data_append, List.append_assoc]
  rw [pyIn, h]
  exact occursInL_mid p.data a.data b.data

namespace Server

/-- Every job id built by `schedule_daily_reminders` contains the owner's
phone as a substring. -/
theorem pyIn_jobId (phone : String) (h m : Int) (i : Nat) :
    pyIn phone (jobId phone h m i) = true := by
  have hshape : jobId phone h m i =
      "reminder_" ++ phone ++
        ("_" ++ intToString h ++ "_" ++ intToString m ++ "_" ++ natToString i) := by
    simp [jobId, String.append_assoc]
  rw [hshape]
  exact pyIn_sandwich phone "reminder_" _

end Server

/-! ### Lemmas: decimal rendering -/

theorem isDigit_digitChar {n : Nat} (h : n < 10) :
    (Nat.digitChar n).isDigit = true := by
  interval_cases n <;> decide

theorem isDigit_of_mem_natToCharsAux :
    ∀ (fuel n : Nat) (c : Char), c ∈ natToCharsAux fuel n → c.isDigit = true := by
  intro fuel
  induction fuel with
  | zero => intro n c hc; simp [natToCharsAux] at hc
  | succ fuel ih =>
    intro n c hc
    rw [natToCharsAux] at hc
    by_cases hn : n < 10
    · simp [hn] at hc
      rw [hc]; exact isDigit_digitChar hn
    · simp [hn] at hc
      rcases hc with hc | hc
      · exact ih _ _ hc
      · rw [hc]; exact isDigit_digitChar (Nat.mod_lt n (by omega))

theorem ne_underscore_of_mem_natToChars {n : Nat} {c : Char}
    (hc : c ∈ natToChars n) : (c == '_') = false := by
  have hd := isDigit_of_mem_natToCharsAux (n + 1) n c hc
  cases hb : (c == '_') with
  | false => rfl
  | true =>
    rw [beq_iff_eq] at hb
    rw [hb] at hd
    exact absurd hd (by decide)

theorem toNat_digitChar_sub {n : Nat} (h : n < 10) :
    (Nat.digitChar n).toNat - 48 = n := by
  interval_cases n <;> decide

theorem natVal_append_digit (l : List Char) (c : Char) :
    natVal (l ++ [c]) = 10 * natVal l + (c.toNat - 48) := by
  simp [natVal, List.foldl_append]

theorem natVal_natToCharsAux :
    ∀ (fuel n : Nat), n < fuel → natVal (natToCharsAux fuel n) = n := by
  intro fuel
  induction fuel with
  | zero => intro n h; omega
  | succ fuel ih =>
    intro n h
    rw [natToCharsAux]
    by_cases hn : n < 10
    · simp only [hn, if_true]
      show 10 * 0 + ((Nat.digitChar n).toNat - 48) = n
      rw [toNat_digitChar_sub hn]
      omega
    · simp only [hn, if_false]
      have hdiv : n / 10 < n := Nat.div_lt_self (by omega) (by omega)
      rw [natVal_append_digit, ih (n / 10) (by omega),
        toNat_digitChar_sub (Nat.mod_lt n (by omega))]
      exact Nat.div_add_mod n 10

theorem natToChars_injective {a b : Nat} (h : natToChars a = natToChars b) :
    a = b := by
  have ha : natVal (natToChars a) = a := natVal_natToCharsAux (a + 1) a (by omega)
  have hb : natVal (natToChars b) = b := natVal_natToCharsAux (b + 1) b (by omega)
  rw [← ha, ← hb, h]

theorem takeWhile_append_cons (p : Char → Bool) :
    ∀ (xs : List Char) (c : Char) (ys : List Char),
      (∀ a ∈ xs, p a = true) → p c = false →
      (xs ++ c :: ys).takeWhile p = xs := by
  intro xs
  induction xs with
  | nil =>
    intro c ys _ hc
    rw [List.nil_append, List.takeWhile_cons, hc]
    simp
  | cons x xs ih =>
    intro c ys hall hc
    rw [List.cons_append, List.takeWhile_cons, hall x (by simp)]
    simp only [if_true]
    rw [ih c ys (fun a ha => hall a (by simp [ha])) hc]

namespace Server

/-- The character decomposition of a job id: everything before the final
underscore, then the digits of the pair index. -/
theorem jobId_data (phone : String) (h m : Int) (i : Nat) :
    (jobId phone h m i).data =
      ("reminder_" ++ phone ++ "_" ++ intToString h ++ "_" ++ intToString m).data
        ++ '_' :: natToChars i := by
  show ((("reminder_" ++ phone ++ "_" ++ intToString h ++ "_" ++ intToString m)
      ++ "_") ++ natToString i).data = _
  rw [String.data_append, String.data_append]
  show _ ++ ['_'] ++ natToChars i = _
  rw [List.append_assoc]
  rfl

/-- Job ids built in one call determine their pair index: ids with the same
phone but different indices differ, whatever the local times are. -/
theorem jobId_inj_idx {phone : String} {h m h' m' : Int} {i i' : Nat}
    (heq : jobId phone h m i = jobId phone h' m' i') : i = i' := by
  have hd : (jobId phone h m i).data = (jobId phone h' m' i').data := by rw [heq]
  rw [jobId_data, jobId_data] at hd
  have hrev := congrArg List.reverse hd
  rw [List.reverse_append, List.reverse_append, List.reverse_cons,
    List.reverse_cons, List.append_assoc, List.append_assoc,
    List.singleton_append, List.singleton_append] at hrev
  have ht := congrArg (List.takeWhile (fun c => !(c == '_'))) hrev
  rw [takeWhile_append_cons _ _ _ _
      (fun a ha => by
        rw [ne_underscore_of_mem_natToChars (List.mem_reverse.mp ha)]; rfl)
      (by decide),
    takeWhile_append_cons _ _ _ _
      (fun a ha => by
        rw [ne_underscore_of_mem_natToChars (List.mem_reverse.mp ha)]; rfl)
      (by decide)] at ht
  exact natToChars_injective (List.reverse_injective ht)

/-! ### Lemmas: decomposing `schedule_daily_reminders` -/

/-- `add_job` with a fresh id appends the job. -/
theorem addJob_append {reg : Registry} {j : Job}
    (h : ∀ x ∈ reg, x.id ≠ j.id) : addJob reg j = reg ++ [j] := by
  rw [addJob, if_neg]
  intro hany
  rw [List.any_eq_true] at hany
  obtain ⟨x, hx, hbeq⟩ := hany
  exact h x hx (by rwa [beq_iff_eq] at hbeq)

/-- The installation loop, run from a registry holding no job whose id could
still be generated (index `≥ n`), appends exactly the planned jobs and returns
the planner's completion flag. -/
theorem installLoop_eq (phone : String) (goals : List String) :
    ∀ (times : List String) (n : Nat) (reg : Registry),
      (∀ j ∈ reg, ∀ (k : Nat) (h m : Int), n ≤ k → j.id ≠ jobId phone h m k) →
      installLoop phone goals n times reg =
        ⟨reg ++ (planLoop goals n times).1.map (entryJob phone),
          (planLoop goals n times).2⟩ := by
  intro times
  induction times with
  | nil => intro n reg _; simp [installLoop, planLoop]
  | cons t rest ih =>
    intro n reg hfresh
    simp only [installLoop, planLoop]
    by_cases hn : n < goals.length
    · simp only [if_pos hn]
      cases hpt : parseTime t with
      | none => simp
      | some hm =>
        obtain ⟨h, m⟩ := hm
        dsimp only
        cases hcron : cronMinuteOk m with
        | false => simp [hcron]
        | true =>
          have hfresh2 : ∀ (g : String),
              ∀ j ∈ reg ++ [mkJob phone n h m g],
              ∀ (k : Nat) (h' m' : Int), n + 1 ≤ k →
                j.id ≠ jobId phone h' m' k := by
            intro g j hj k h' m' hk
            rcases List.mem_append.mp hj with hj | hj
            · exact hfresh j hj k h' m' (by omega)
            · rw [List.mem_singleton.mp hj]
              intro hbad
              have : n = k := jobId_inj_idx hbad
              omega
          rw [addJob_append (j := mkJob phone n h m (goals.getD n ""))
              (fun x hx => hfresh x hx n h m (le_refl n)),
            ih (n + 1) _ (hfresh2 _)]
          simp [hcron, entryJob, List.append_assoc]
    · simp only [if_neg hn]
      exact ih (n + 1) reg (fun j hj k h m hk => hfresh j hj k h m (by omega))

/-- `schedule_daily_reminders` in closed form: the registry loses every job
whose id contains the phone and gains the planned jobs; the returned flag is
the planner's completion flag. -/
theorem schedule_daily_reminders_eq (reg : Registry) (phone : String)
    (goals times : List String) :
    schedule_daily_reminders reg phone goals times =
      ⟨removeUserJobs phone reg
          ++ (planLoop goals 0 times).1.map (entryJob phone),
        (planLoop goals 0 times).2⟩ := by
  rw [schedule_daily_reminders]
  apply installLoop_eq
  intro j hj k h m _ hbad
  have hmem := List.mem_filter.mp hj
  have : pyIn phone j.id = true := by rw [hbad]; exact pyIn_jobId phone h m k
  rw [this] at hmem
  exact absurd hmem.2 (by decide)

theorem timeOk_elim {t : String} (ht : timeOk t = true) :
    ∃ h m, parseTime t = some (h, m) ∧ cronMinuteOk m = true := by
  unfold timeOk at ht
  cases hp : parseTime t with
  | none => rw [hp] at ht; exact absurd ht (by decide)
  | some p =>
    obtain ⟨h, m⟩ := p
    rw [hp] at ht
    exact ⟨h, m, rfl, ht⟩

/-- When every reminder-time string is acceptable, the planner completes, its
entry count is `min` of the list lengths, and entry `k` pairs time `k` with
goal `k`. -/
theorem planLoop_all_ok (goals : List String) :
    ∀ (times : List String) (n : Nat),
      (∀ t ∈ times, timeOk t = true) →
      (planLoop goals n times).2 = true ∧
      (planLoop goals n times).1.length = min times.length (goals.length - n) ∧
      ∀ (k : Nat) (t : String) (h m : Int),
        times.get? k = some t → n + k < goals.length →
        parseTime t = some (h, m) →
        (planLoop goals n times).1.get? k =
          some (n + k, h, m, goals.getD (n + k) "") := by
  intro times
  induction times with
  | nil =>
    intro n _
    refine ⟨rfl, by simp [planLoop], ?_⟩
    intro k t h m hget _ _
    simp at hget
  | cons t rest ih =>
    intro n hall
    obtain ⟨h0, m0, hpt, hcr⟩ := timeOk_elim (hall t (by simp))
    have ihr := ih (n + 1) (fun u hu => hall u (by simp [hu]))
    simp only [planLoop]
    by_cases hn : n < goals.length
    · simp only [if_pos hn, hpt, hcr]
      simp only [eq_self_iff_true, if_true]
      refine ⟨ihr.1, ?_, ?_⟩
      · simp only [List.length_cons]
        rw [ihr.2.1]
        omega
      · intro k t' h' m' hget hlt hparse
        cases k with
        | zero =>
          rw [List.get?] at hget
          injection hget with hget
          rw [← hget] at hparse
          rw [hpt] at hparse
          injection hparse with hparse
          injection hparse with e1 e2
          subst e1
          subst e2
          simp only [List.get?]
          simp
        | succ k =>
          rw [List.get?] at hget
          have := ihr.2.2 k t' h' m' hget (by omega) hparse
          simp only [List.get?]
          rw [this]
          have heq : n + 1 + k = n + (k + 1) := by omega
          rw [heq]
    · simp only [if_neg hn]
      refine ⟨ihr.1, ?_, ?_⟩
      · rw [ihr.2.1]
        omega
      · intro k t' h' m' _ hlt _
        omega

/-- A rejected time string at a considered pair aborts the planner: it
reports failure and keeps exactly the entries of the earlier pairs. -/
theorem planLoop_bad (goals : List String) :
    ∀ (times : List String) (n k : Nat) (t : String),
      times.get? k = some t →
      (∀ (j : Nat) (t' : String), j < k → times.get? j = some t' →
        timeOk t' = true) →
      n + k < goals.length →
      timeOk t = false →
      (planLoop goals n times).2 = false ∧
      (planLoop goals n times).1.length = k := by
  intro times
  induction times with
  | nil => intro n k t hget _ _ _; simp at hget
  | cons t0 rest ih =>
    intro n k t hget hearlier hlt hbad
    simp only [planLoop]
    have hn : n < goals.length := by omega
    simp only [if_pos hn]
    cases k with
    | zero =>
      rw [List.get?] at hget
      injection hget with hget
      subst hget
      cases hpt : parseTime t0 with
      | none => simp [hpt]
      | some p =>
        obtain ⟨h, m⟩ := p
        have hcr : cronMinuteOk m = false := by
          unfold timeOk at hbad
          rw [hpt] at hbad
          exact hbad
        simp [hpt, hcr]
    | succ k =>
      have ht0 : timeOk t0 = true := hearlier 0 t0 (by omega) rfl
      obtain ⟨h0, m0, hpt, hcr⟩ := timeOk_elim ht0
      rw [List.get?] at hget
      simp only [hpt, hcr]
      simp only [eq_self_iff_true, if_true]
      have hr := ih (n + 1) k t hget
        (fun j t' hj hget' => hearlier (j + 1) t' (by omega) hget')
        (by omega) hbad
      exact ⟨hr.1, by simp [hr.2]⟩

/-- Every installed job's id contains the owner's phone. -/
theorem pyIn_entryJob (phone : String) (e : Nat × Int × Int × String) :
    pyIn phone (entryJob phone e).id = true :=
  pyIn_jobId phone e.2.1 e.2.2.1 e.1

/-- Clearing a user's jobs absorbs the jobs the same user's call installed. -/
theorem removeUserJobs_append_planned (phone : String) (reg : Registry)
    (l : List (Nat × Int × Int × String)) :
    removeUserJobs phone
        (removeUserJobs phone reg ++ l.map (entryJob phone)) =
      removeUserJobs phone reg := by
  rw [removeUserJobs, List.filter_append]
  have h1 : List.filter (fun j => !pyIn phone j.id) (removeUserJobs phone reg)
      = removeUserJobs phone reg := by
    rw [List.filter_eq_self]
    intro a ha
    exact (List.mem_filter.mp ha).2
  have h2 : List.filter (fun j => !pyIn phone j.id) (l.map (entryJob phone))
      = [] := by
    rw [List.filter_eq_nil_iff]
    intro a ha
    obtain ⟨e, _, rfl⟩ := List.mem_map.mp ha
    rw [pyIn_entryJob]
    decide
  rw [h1, h2, List.append_nil]

/-! ### Lemmas: uniqueness of job ids -/

/-- Planner entries starting at counter `n` carry pair indices `≥ n`. -/
theorem planLoop_index_ge (goals : List String) :
    ∀ (times : List String) (n : Nat),
      ∀ e ∈ (planLoop goals n times).1, n ≤ e.1 := by
  intro times
  induction times with
  | nil => intro n e he; simp [planLoop] at he
  | cons t rest ih =>
    intro n e he
    simp only [planLoop] at he
    by_cases hn : n < goals.length
    · rw [if_pos hn] at he
      cases hpt : parseTime t with
      | none => simp [hpt] at he
      | some p =>
        obtain ⟨h, m⟩ := p
        simp only [hpt] at he
        cases hcr : cronMinuteOk m with
        | false => simp [hcr] at he
        | true =>
          simp only [hcr, eq_self_iff_true, if_true] at he
          rcases List.mem_cons.mp he with he | he
          · rw [he]
          · exact Nat.le_of_succ_le (ih (n + 1) e he)
    · rw [if_neg hn] at he
      exact Nat.le_of_succ_le (ih (n + 1) e he)

/-- The ids of the jobs one call installs are pairwise distinct. -/
theorem planLoop_ids_nodup (phone : String) (goals : List String) :
    ∀ (times : List String) (n : Nat),
      ((planLoop goals n times).1.map
        (fun e => (entryJob phone e).id)).Nodup := by
  intro times
  induction times with
  | nil => intro n; simp [planLoop]
  | cons t rest ih =>
    intro n
    simp only [planLoop]
    by_cases hn : n < goals.length
    · rw [if_pos hn]
      cases hpt : parseTime t with
      | none => simp
      | some p =>
        obtain ⟨h, m⟩ := p
        cases hcr : cronMinuteOk m with
        | false => simp [hcr]
        | true =>
          simp only [hcr, eq_self_iff_true, if_true]
          rw [List.map_cons, List.nodup_cons]
          refine ⟨?_, ih (n + 1)⟩
          intro hmem
          obtain ⟨e, he, heq⟩ := List.mem_map.mp hmem
          have hge : n + 1 ≤ e.1 := planLoop_index_ge goals rest (n + 1) e he
          have : e.1 = n := jobId_inj_idx heq
          omega
    · rw [if_neg hn]
      exact ih (n + 1)

/-- `schedule_daily_reminders` preserves distinctness of registry job ids. -/
theorem schedule_nodup (reg : Registry) (phone : String)
    (goals times : List String) (hnd : (reg.map Job.id).Nodup) :
    (((schedule_daily_reminders reg phone goals times).registry).map
      Job.id).Nodup := by
  rw [schedule_daily_reminders_eq]
  dsimp only
  rw [List.map_append]
  apply List.Nodup.append
  · exact ((List.filter_sublist reg).map Job.id).nodup hnd
  · rw [List.map_map]
    exact planLoop_ids_nodup phone goals times 0
  · intro a ha hb
    obtain ⟨j, hj, rfl⟩ := List.mem_map.mp ha
    have hjf : pyIn phone j.id = false := by
      have := (List.mem_filter.mp hj).2
      cases hpy : pyIn phone j.id with
      | false => rfl
      | true => rw [hpy] at this; exact absurd this (by decide)
    rw [List.map_map] at hb
    obtain ⟨e, _, heq⟩ := List.mem_map.mp hb
    rw [Function.comp_apply] at heq
    have hpe := pyIn_entryJob phone e
    rw [heq] at hpe
    rw [hpe] at hjf
    exact absurd hjf (by decide)

end Server

/-! ### Lemmas: the `'|'` join/split serialization -/

theorem splitOnCharL_no_sep {sep : Char} :
    ∀ (w : List Char), (∀ c ∈ w, c ≠ sep) → splitOnCharL sep w = [w] := by
  intro w
  induction w with
  | nil => intro _; rfl
  | cons c cs ih =>
    intro hall
    simp only [splitOnCharL, if_neg (hall c (by simp))]
    rw [ih (fun a ha => hall a (by simp [ha]))]

theorem splitOnCharL_append_sep {sep : Char} :
    ∀ (w rest : List Char), (∀ c ∈ w, c ≠ sep) →
      splitOnCharL sep (w ++ sep :: rest) = w :: splitOnCharL sep rest := by
  intro w rest
  induction w with
  | nil =>
    intro _
    simp [splitOnCharL]
  | cons c cs ih =>
    intro hall
    rw [List.cons_append]
    simp only [splitOnCharL, if_neg (hall c (by simp))]
    rw [ih (fun a ha => hall a (by simp [ha]))]

/-- `split('|')` inverts `'|'.join` on a nonempty list of separator-free
words. -/
theorem splitOnCharL_joinCharL {sep : Char} :
    ∀ (l : List (List Char)), l ≠ [] → (∀ w ∈ l, ∀ c ∈ w, c ≠ sep) →
      splitOnCharL sep (joinCharL sep l) = l := by
  intro l
  induction l with
  | nil => intro h _; exact absurd rfl h
  | cons w ws ih =>
    intro _ hall
    cases ws with
    | nil => exact splitOnCharL_no_sep w (hall w (by simp))
    | cons w2 ws2 =>
      show splitOnCharL sep (w ++ sep :: joinCharL sep (w2 :: ws2)) = _
      rw [splitOnCharL_append_sep w _ (hall w (by simp))]
      rw [ih (by simp) (fun u hu c hc => hall u (by simp [hu]) c hc)]

/-- `split` always yields one more chunk than there are separators. -/
theorem splitOnCharL_length {sep : Char} :
    ∀ (s : List Char), (splitOnCharL sep s).length = s.count sep + 1 := by
  intro s
  induction s with
  | nil => rfl
  | cons c cs ih =>
    by_cases hc : c = sep
    · subst hc
      simp [splitOnCharL, ih, List.count_cons_self]
    · simp only [splitOnCharL, if_neg hc]
      cases hsp : splitOnCharL sep cs with
      | nil => rw [hsp] at ih; simp at ih
      | cons w ws =>
        rw [hsp] at ih
        simp only [List.length_cons] at ih ⊢
        rw [List.count_cons]
        have hb : (c == sep) = false := by
          cases hb : c == sep with
          | false => rfl
          | true => exact absurd (by rwa [beq_iff_eq] at hb) hc
        simp [hb]
        omega

/-- The separator count of a join: one per boundary plus those inside the
words. -/
theorem joinCharL_count {sep : Char} :
    ∀ (l : List (List Char)), l ≠ [] →
      (joinCharL sep l).count sep =
        (l.length - 1) + (l.map (List.count sep)).sum := by
  intro l
  induction l with
  | nil => intro h; exact absurd rfl h
  | cons w ws ih =>
    intro _
    cases ws with
    | nil => simp [joinCharL]
    | cons w2 ws2 =>
      show (w ++ sep :: joinCharL sep (w2 :: ws2)).count sep = _
      rw [List.count_append, List.count_cons_self, ih (by simp)]
      simp only [List.length_cons, List.map_cons, List.sum_cons]
      have h2 : (List.map (List.count sep) (w2 :: ws2)).sum =
          List.count sep w2 + (List.map (List.count sep) ws2).sum := by
        simp
      omega

/-- A word containing the separator breaks the round trip: the split of the
join has strictly more chunks than the original list. -/
theorem splitOnCharL_joinCharL_ne {sep : Char} (l : List (List Char))
    (hw : ∃ w ∈ l, sep ∈ w) : splitOnCharL sep (joinCharL sep l) ≠ l := by
  obtain ⟨w, hwl, hcw⟩ := hw
  intro heq
  have hne : l ≠ [] := by intro h; rw [h] at hwl; simp at hwl
  have hlen := congrArg List.length heq
  rw [splitOnCharL_length, joinCharL_count _ hne] at hlen
  have hsum : 1 ≤ (l.map (List.count sep)).sum := by
    have h1 : 0 < w.count sep := List.count_pos_iff.mpr hcw
    have h2 := List.single_le_sum
      (fun (x : Nat) (_ : x ∈ l.map (List.count sep)) => Nat.zero_le x)
      (List.count sep w) (List.mem_map_of_mem (List.count sep) hwl)
    omega
  have hlpos : 1 ≤ l.length := by
    cases l with
    | nil => exact absurd rfl hne
    | cons a as => simp
  omega

/-! ### Lemmas: store lookup and update -/

theorem find?_append_of_none {α : Type} (p : α → Bool) :
    ∀ (l₁ l₂ : List α), l₁.find? p = none →
      (l₁ ++ l₂).find? p = l₂.find? p := by
  intro l₁ l₂ hnone
  rw [List.find?_append, hnone, Option.none_or]

namespace Server

/-- Updating the first matching document commutes with looking it up. -/
theorem find_one_update_one :
    ∀ (db : List User) (phone : String) (ts : List String),
      find_one (update_one db phone ts) phone =
        (find_one db phone).map (fun u => { u with reminder_times := ts }) := by
  intro db phone ts
  induction db with
  | nil => rfl
  | cons u us ih =>
    cases hp : u.phone == phone with
    | true => simp [find_one, update_one, List.find?_cons, hp]
    | false => simpa [find_one, update_one, List.find?_cons, hp] using ih

/-! ### Claims -/

/-- C1: for every reminder time string parsed as `(h, m)` (with a cron-valid
minute) at a pair index backed by a goal, and a batch whose other entries are
also accepted, the call installs a job for that pair whose UTC trigger hour is
`(h - 1) % 24` — the fixed GMT+1 offset — and whose trigger minute is the
local minute unchanged. -/
theorem C1_utc_conversion (reg : Registry) (phone : String)
    (goals times : List String) (i : Nat) (t : String) (h m : Int)
    (hall : ∀ u ∈ times, timeOk u = true)
    (hget : times.get? i = some t) (hi : i < goals.length)
    (hparse : parseTime t = some (h, m)) :
    ∃ j ∈ (schedule_daily_reminders reg phone goals times).registry,
      j.id = jobId phone h m i ∧ j.hour = (h - 1) % 24 ∧ j.minute = m := by
  have hplan := (planLoop_all_ok goals times 0 hall).2.2 i t h m hget
    (by omega) hparse
  rw [schedule_daily_reminders_eq]
  have hmem : ((0 + i : Nat), h, m, goals.getD (0 + i) "")
      ∈ (planLoop goals 0 times).1 := List.get?_mem hplan
  refine ⟨entryJob phone (0 + i, h, m, goals.getD (0 + i) ""), ?_, ?_, rfl, rfl⟩
  · exact List.mem_append_right _ (List.mem_map_of_mem _ hmem)
  · show jobId phone h m (0 + i) = jobId phone h m i
    rw [Nat.zero_add]

/-- Witness for C1 at the spec's own example: local "09:00", offset +1, gives
UTC hour 8, minute 0. -/
theorem C1_utc_conversion_witness :
    ∃ j ∈ (schedule_daily_reminders [] "+15551234567" ["Exercise"]
        ["09:00"]).registry,
      j.id = jobId "+15551234567" 9 0 0 ∧ j.hour = (9 - 1) % 24 ∧
        j.minute = 0 :=
  C1_utc_conversion [] "+15551234567" ["Exercise"] ["09:00"] 0 "09:00" 9 0
    (by decide) (by decide) (by decide) (by decide)

/-- C2 counterexample: the removal loop tests `user_phone in job.id` by
substring, so scheduling for phone "+123" with an empty plan deletes the job
of the distinct user "+1234" — the claim that other users' jobs are always
untouched is false. -/
theorem C2_cex_substring_removal :
    (schedule_daily_reminders
        [{ id := "reminder_+1234_9_0_0", hour := 8, minute := 0,
           phone := "+1234", text := reminderText "Read" }]
        "+123" [] []).registry = [] ∧ ("+1234" : String) ≠ "+123" := by
  constructor
  · decide
  · decide

/-- C2 amended: a call for user U removes exactly the jobs whose id contains
U's phone as a substring (in particular all of U's own jobs) and installs only
the jobs planned from U's new input; a job of another user survives, in place,
precisely when U's phone is not a substring of its id. -/
theorem C2_amended_reconcile (reg : Registry) (phone : String)
    (goals times : List String) :
    (schedule_daily_reminders reg phone goals times).registry =
      reg.filter (fun j => !(pyIn phone j.id))
        ++ (planLoop goals 0 times).1.map (entryJob phone) := by
  rw [schedule_daily_reminders_eq]
  rfl

/-- C3 counterexample: the batch ["25:61", "09:00"] with two goals installs
nothing at all and returns `False` — the malformed first pair aborts the whole
call instead of being skipped, so the valid pair "09:00" is never
scheduled. -/
theorem C3_cex_batch_abort :
    schedule_daily_reminders [] "+15551234567" ["A", "B"] ["25:61", "09:00"]
        = ⟨[], false⟩ ∧
      timeOk "09:00" = true ∧ timeOk "25:61" = false := by
  refine ⟨by decide, by decide, by decide⟩

/-- C3 amended: a reminder time rejected by the loop (unparseable as
`int:int`, or minute outside cron range) at a pair index backed by a goal
makes the whole call fail: the function returns `False`, exactly the earlier
pairs' jobs are installed, and the rejected pair and all later pairs are
not. -/
theorem C3_amended_abort (reg : Registry) (phone : String)
    (goals times : List String) (k : Nat) (t : String)
    (hget : times.get? k = some t) (hk : k < goals.length)
    (hbad : timeOk t = false)
    (hearlier : ∀ (j : Nat) (t' : String), j < k → times.get? j = some t' →
      timeOk t' = true) :
    (schedule_daily_reminders reg phone goals times).ok = false ∧
    (schedule_daily_reminders reg phone goals times).registry =
      removeUserJobs phone reg
        ++ (planLoop goals 0 times).1.map (entryJob phone) ∧
    (planLoop goals 0 times).1.length = k := by
  have hb := planLoop_bad goals times 0 k t hget hearlier (by omega) hbad
  rw [schedule_daily_reminders_eq]
  exact ⟨hb.1, rfl, hb.2⟩

/-- Witness for the amended C3 at the spec's example "25:61". -/
theorem C3_amended_abort_witness :
    (schedule_daily_reminders [] "+1" ["A", "B"] ["25:61", "09:00"]).ok
        = false ∧
    (schedule_daily_reminders [] "+1" ["A", "B"] ["25:61", "09:00"]).registry =
      removeUserJobs "+1" []
        ++ (planLoop ["A", "B"] 0 ["25:61", "09:00"]).1.map (entryJob "+1") ∧
    (planLoop ["A", "B"] 0 ["25:61", "09:00"]).1.length = 0 :=
  C3_amended_abort [] "+1" ["A", "B"] ["25:61", "09:00"] 0 "25:61"
    (by decide) (by decide) (by decide)
    (fun j _ hj _ => absurd hj (Nat.not_lt_zero j))

/-- C4: running `schedule_daily_reminders` twice with identical input leaves
exactly the final state of running it once — same registry (identities and
count, hence no duplicates) and same returned flag — for every starting
registry, even one on which the call fails partway. -/
theorem C4_idempotent (reg : Registry) (phone : String)
    (goals times : List String) :
    schedule_daily_reminders
        (schedule_daily_reminders reg phone goals times).registry
        phone goals times =
      schedule_daily_reminders reg phone goals times := by
  rw [schedule_daily_reminders_eq reg phone goals times]
  rw [schedule_daily_reminders_eq]
  rw [removeUserJobs_append_planned]

/-- C5: when every time string in the batch is accepted, the call succeeds and
installs exactly `min (len goals) (len times)` new jobs after the removal
phase, job `i` pairing goal `i` with time `i`; surplus goals or surplus times
are dropped without error. -/
theorem C5_min_pairing (reg : Registry) (phone : String)
    (goals times : List String) (hall : ∀ t ∈ times, timeOk t = true) :
    (schedule_daily_reminders reg phone goals times).ok = true ∧
    (schedule_daily_reminders reg phone goals times).registry =
      removeUserJobs phone reg
        ++ (planLoop goals 0 times).1.map (entryJob phone) ∧
    ((planLoop goals 0 times).1.map (entryJob phone)).length =
      min goals.length times.length ∧
    ∀ (i : Nat) (t : String) (h m : Int),
      times.get? i = some t → i < goals.length → parseTime t = some (h, m) →
      ((planLoop goals 0 times).1.map (entryJob phone)).get? i =
        some (mkJob phone i h m (goals.getD i "")) := by
  have hp := planLoop_all_ok goals times 0 hall
  rw [schedule_daily_reminders_eq]
  refine ⟨hp.1, rfl, ?_, ?_⟩
  · rw [List.length_map, hp.2.1]
    omega
  · intro i t h m hget hi hparse
    have hq := hp.2.2 i t h m hget (by omega) hparse
    rw [List.get?_map, hq]
    simp [entryJob]

/-- Witness for C5 at the spec's example: two goals, one time, exactly one job
at index 0. -/
theorem C5_min_pairing_witness :
    (schedule_daily_reminders [] "+1" ["A", "B"] ["09:00"]).ok = true ∧
    (schedule_daily_reminders [] "+1" ["A", "B"] ["09:00"]).registry =
      removeUserJobs "+1" []
        ++ (planLoop ["A", "B"] 0 ["09:00"]).1.map (entryJob "+1") ∧
    ((planLoop ["A", "B"] 0 ["09:00"]).1.map (entryJob "+1")).length =
      min (["A", "B"] : List String).length (["09:00"] : List String).length ∧
    ∀ (i : Nat) (t : String) (h m : Int),
      (["09:00"] : List String).get? i = some t →
      i < (["A", "B"] : List String).length → parseTime t = some (h, m) →
      ((planLoop ["A", "B"] 0 ["09:00"]).1.map (entryJob "+1")).get? i =
        some (mkJob "+1" i h m ((["A", "B"] : List String).getD i "")) :=
  C5_min_pairing [] "+1" ["A", "B"] ["09:00"] (by decide)

/-- C6: at most one job per identity `(phone, local hour, local minute, pair
index)` is ever active. Installing a job whose id already exists replaces the
prior job in place — same registry size, new job present — and
`schedule_daily_reminders` preserves distinctness of registry ids, which (the
identity tuple determining the id) bounds each identity to one job. -/
theorem C6_unique_identity :
    (∀ (reg : Registry) (j : Job), j.id ∈ reg.map Job.id →
      (addJob reg j).length = reg.length ∧ j ∈ addJob reg j) ∧
    (∀ (reg : Registry) (phone : String) (goals times : List String),
      (reg.map Job.id).Nodup →
      (((schedule_daily_reminders reg phone goals times).registry).map
        Job.id).Nodup) := by
  constructor
  · intro reg j hid
    have hany : reg.any (fun k => k.id == j.id) = true := by
      rw [List.any_eq_true]
      obtain ⟨x, hx, hxe⟩ := List.mem_map.mp hid
      exact ⟨x, hx, by rw [hxe]; exact beq_self_eq_true _⟩
    rw [addJob, if_pos hany]
    constructor
    · rw [List.length_map]
    · obtain ⟨x, hx, hxe⟩ := List.mem_map.mp hid
      exact List.mem_map.mpr ⟨x, hx,
        by rw [if_pos (by rw [hxe]; exact beq_self_eq_true _)]⟩
  · exact fun reg phone goals times hnd => schedule_nodup reg phone goals times hnd

/-- Witness for C6: replacing the sole job with a same-id job keeps one job,
and a scheduling call over a singleton registry yields distinct ids. -/
theorem C6_unique_identity_witness :
    ((addJob
        [{ id := "reminder_+1_9_0_0", hour := 8, minute := 0,
           phone := "+1", text := "old" }]
        { id := "reminder_+1_9_0_0", hour := 8, minute := 30,
          phone := "+1", text := "new" }).length = 1 ∧
      ({ id := "reminder_+1_9_0_0", hour := 8, minute := 30,
         phone := "+1", text := "new" } : Job) ∈ addJob
        [{ id := "reminder_+1_9_0_0", hour := 8, minute := 0,
           phone := "+1", text := "old" }]
        { id := "reminder_+1_9_0_0", hour := 8, minute := 30,
          phone := "+1", text := "new" }) ∧
    (((schedule_daily_reminders
        [{ id := "reminder_+2_8_0_0", hour := 7, minute := 0,
           phone := "+2", text := "other" }]
        "+1" ["A"] ["09:00"]).registry).map Job.id).Nodup :=
  ⟨C6_unique_identity.1
      [{ id := "reminder_+1_9_0_0", hour := 8, minute := 0,
         phone := "+1", text := "old" }]
      { id := "reminder_+1_9_0_0", hour := 8, minute := 30,
        phone := "+1", text := "new" } (by decide),
    C6_unique_identity.2
      [{ id := "reminder_+2_8_0_0", hour := 7, minute := 0,
         phone := "+2", text := "other" }]
      "+1" ["A"] ["09:00"] (by decide)⟩

/-- C7 counterexample: with an input whose scheduling step fails, the signup
outcome — stored users, registry, and response body — is identical whether the
welcome email succeeded or failed, and the response is exactly the bare
created user; nothing in it reports the failed sub-steps, contradicting the
claim that the response reports which sub-step failed. -/
theorem C7_cex_no_failure_report :
    (signup_user [] []
        ⟨"Ada", "ada@example.com", "+1999", ["Exercise"], ["25:61"]⟩
        "id-1" "2024-01-01T00:00:00" false) =
      (signup_user [] []
          ⟨"Ada", "ada@example.com", "+1999", ["Exercise"], ["25:61"]⟩
          "id-1" "2024-01-01T00:00:00" true) ∧
    (schedule_daily_reminders [] "+1999" ["Exercise"] ["25:61"]).ok = false ∧
    (signup_user [] []
        ⟨"Ada", "ada@example.com", "+1999", ["Exercise"], ["25:61"]⟩
        "id-1" "2024-01-01T00:00:00" false).2.2 =
      newUser ⟨"Ada", "ada@example.com", "+1999", ["Exercise"], ["25:61"]⟩
        "id-1" "2024-01-01T00:00:00" := by
  refine ⟨rfl, by decide, rfl⟩

/-- C7 amended: signup always returns the created user (success) — the
welcome-email outcome and the scheduling outcome never change the stored user,
the response, or anything else observable; the sub-step failures are only
logged, so the response does not report them. -/
theorem C7_amended_signup (db : List User) (reg : Registry)
    (data : UserCreate) (newId now : String) (e1 e2 : Bool) :
    (signup_user db reg data newId now e1).2.2 = newUser data newId now ∧
    signup_user db reg data newId now e1 = signup_user db reg data newId now e2 :=
  ⟨rfl, rfl⟩

/-- C8: the planning computation is deterministic and registry-independent:
the jobs a call installs for the user are the same whatever the prior registry
and equal a pure function (`planLoop`) of the inputs alone, and so is the
returned flag. -/
theorem C8_pure_planning (phone : String) (goals times : List String)
    (reg1 reg2 : Registry) :
    ((schedule_daily_reminders reg1 phone goals times).registry.filter
        (fun j => pyIn phone j.id)) =
      ((schedule_daily_reminders reg2 phone goals times).registry.filter
        (fun j => pyIn phone j.id)) ∧
    (schedule_daily_reminders reg1 phone goals times).ok =
      (schedule_daily_reminders reg2 phone goals times).ok ∧
    ((schedule_daily_reminders reg1 phone goals times).registry.filter
        (fun j => pyIn phone j.id)) =
      (planLoop goals 0 times).1.map (entryJob phone) := by
  have key : ∀ reg : Registry,
      (schedule_daily_reminders reg phone goals times).registry.filter
          (fun j => pyIn phone j.id) =
        (planLoop goals 0 times).1.map (entryJob phone) := by
    intro reg
    rw [schedule_daily_reminders_eq]
    dsimp only
    rw [List.filter_append]
    have h1 : (removeUserJobs phone reg).filter (fun j => pyIn phone j.id)
        = [] := by
      rw [List.filter_eq_nil_iff]
      intro a ha hp
      have h2 := (List.mem_filter.mp ha).2
      rw [hp] at h2
      exact absurd h2 (by decide)
    have h2 : ((planLoop goals 0 times).1.map (entryJob phone)).filter
        (fun j => pyIn phone j.id)
        = (planLoop goals 0 times).1.map (entryJob phone) := by
      rw [List.filter_eq_self]
      intro a ha
      obtain ⟨e, _, rfl⟩ := List.mem_map.mp ha
      exact pyIn_entryJob phone e
    rw [h1, h2, List.nil_append]
  refine ⟨(key reg1).trans (key reg2).symm, ?_, key reg1⟩
  rw [schedule_daily_reminders_eq, schedule_daily_reminders_eq]

/-- C10: the reminder-time update is not atomic on scheduling failure — when
the user exists and `schedule_daily_reminders` returns `False` for the new
times, the endpoint reports the 500 error while the stored record already
holds the new reminder times (no rollback). -/
theorem C10_no_rollback (db : List User) (reg : Registry) (phone : String)
    (newTimes : List String) (u : User)
    (hfind : find_one db phone = some u)
    (hfail : (schedule_daily_reminders reg u.phone u.goals newTimes).ok
      = false) :
    (update_reminder_times db reg phone newTimes).2.2 =
        UpdateResponse.schedError ∧
    find_one (update_reminder_times db reg phone newTimes).1 phone =
      some { u with reminder_times := newTimes } := by
  rw [update_reminder_times, hfind]
  dsimp only
  rw [if_neg (by rw [hfail]; exact Bool.false_ne_true)]
  refine ⟨rfl, ?_⟩
  rw [find_one_update_one, hfind]
  rfl

/-- Witness for C10: a stored user whose new time "25:61" fails scheduling
keeps the new times in the store while the endpoint errors. -/
theorem C10_no_rollback_witness :
    (update_reminder_times
        [{ id := "id0", name := "Ada", email := "ada@example.com",
           phone := "+1", goals := ["Exercise"],
           reminder_times := ["09:00"], timezone := "GMT+1",
           created_at := "2024-01-01", active := true }]
        [] "+1" ["25:61"]).2.2 = UpdateResponse.schedError ∧
    find_one (update_reminder_times
        [{ id := "id0", name := "Ada", email := "ada@example.com",
           phone := "+1", goals := ["Exercise"],
           reminder_times := ["09:00"], timezone := "GMT+1",
           created_at := "2024-01-01", active := true }]
        [] "+1" ["25:61"]).1 "+1" =
      some { id := "id0", name := "Ada", email := "ada@example.com",
             phone := "+1", goals := ["Exercise"],
             reminder_times := ["25:61"], timezone := "GMT+1",
             created_at := "2024-01-01", active := true } :=
  C10_no_rollback
    [{ id := "id0", name := "Ada", email := "ada@example.com",
       phone := "+1", goals := ["Exercise"],
       reminder_times := ["09:00"], timezone := "GMT+1",
       created_at := "2024-01-01", active := true }]
    [] "+1" ["25:61"]
    { id := "id0", name := "Ada", email := "ada@example.com",
      phone := "+1", goals := ["Exercise"],
      reminder_times := ["09:00"], timezone := "GMT+1",
      created_at := "2024-01-01", active := true }
    (by decide) (by decide)

end Server

namespace Sheets

/-- String-level round trip of the `'|'` serialization on a nonempty list of
separator-free strings. -/
theorem pySplitBar_pyJoinBar (l : List String) (hne : l ≠ [])
    (hsep : ∀ s ∈ l, ¬ '|' ∈ s.data) : pySplitBar (pyJoinBar l) = l := by
  show (splitOnCharL '|'
      (String.mk (joinCharL '|' (l.map String.data))).data).map String.mk = l
  have hdata : (String.mk (joinCharL '|' (l.map String.data))).data =
      joinCharL '|' (l.map String.data) := rfl
  rw [hdata, splitOnCharL_joinCharL (l.map String.data)
    (fun hh => hne (List.map_eq_nil_iff.mp hh))
    (by
      intro w hw c hc hceq
      obtain ⟨s, hs, hws⟩ := List.mem_map.mp hw
      rw [← hws] at hc
      rw [hceq] at hc
      exact hsep s hs hc)]
  rw [List.map_map]
  have hcomp : (String.mk ∘ String.data) = id := funext (fun s => rfl)
  rw [hcomp, List.map_id]

/-- C9: reading a freshly inserted user back by phone returns goal and
reminder-time lists equal to the originals whenever both lists are nonempty
and no element contains `'|'`; the `'|'`-join/split round trip fails to
recover an empty list and fails whenever some element contains `'|'`. -/
theorem C9_serialization_roundtrip :
    (∀ (sheet : List SheetRow) (u : SheetUserIn) (now : String),
      (∀ r ∈ sheet, r.phone ≠ u.phone) →
      u.goals ≠ [] → u.reminder_times ≠ [] →
      (∀ g ∈ u.goals, ¬ '|' ∈ g.data) →
      (∀ t ∈ u.reminder_times, ¬ '|' ∈ t.data) →
      ∃ out, get_user_by_phone (insert_user sheet u now) u.phone = some out ∧
        out.goals = u.goals ∧ out.reminder_times = u.reminder_times) ∧
    pySplitBar (pyJoinBar []) ≠ [] ∧
    (∀ l : List String, (∃ s ∈ l, '|' ∈ s.data) →
      pySplitBar (pyJoinBar l) ≠ l) := by
  refine ⟨?_, by decide, ?_⟩
  · intro sheet u now hfresh hg hr hgs hrs
    have hnone : sheet.find? (fun r => r.phone == u.phone) = none := by
      rw [List.find?_eq_none]
      intro r hr2 hb
      exact hfresh r hr2 (by rwa [beq_iff_eq] at hb)
    rw [get_user_by_phone, insert_user,
      find?_append_of_none _ sheet _ hnone]
    simp only [List.find?_cons, beq_self_eq_true]
    refine ⟨_, rfl, ?_, ?_⟩
    · exact pySplitBar_pyJoinBar u.goals hg hgs
    · exact pySplitBar_pyJoinBar u.reminder_times hr hrs
  · intro l hex heq
    have hx : splitOnCharL '|' (joinCharL '|' (l.map String.data)) =
        l.map String.data := by
      have h2 := congrArg (List.map String.data) heq
      rw [pySplitBar, pyJoinBar, List.map_map] at h2
      have hcomp : (String.data ∘ String.mk) = id := funext (fun w => rfl)
      rw [hcomp, List.map_id] at h2
      exact h2
    obtain ⟨s, hs, hcs⟩ := hex
    exact splitOnCharL_joinCharL_ne (l.map String.data)
      ⟨s.data, List.mem_map_of_mem _ hs, hcs⟩ hx

/-- Witness for C9: a fresh user round-trips; the empty list and a goal
"a|b" do not. -/
theorem C9_serialization_roundtrip_witness :
    (∃ out, get_user_by_phone (insert_user []
        ⟨"id0", "Ada", "ada@example.com", "+1", ["Run", "Read"], ["09:00"],
          "GMT+1", "TRUE"⟩ "2024-01-01") "+1" = some out ∧
      out.goals = ["Run", "Read"] ∧ out.reminder_times = ["09:00"]) ∧
    pySplitBar (pyJoinBar []) ≠ [] ∧
    pySplitBar (pyJoinBar ["a|b"]) ≠ ["a|b"] :=
  ⟨C9_serialization_roundtrip.1 []
      ⟨"id0", "Ada", "ada@example.com", "+1", ["Run", "Read"], ["09:00"],
        "GMT+1", "TRUE"⟩ "2024-01-01" (by decide) (by decide) (by decide)
      (by decide) (by decide),
    C9_serialization_roundtrip.2.1,
    C9_serialization_roundtrip.2.2 ["a|b"] (by decide)⟩

end Sheets

end LockedIn

